import Mathlib

/-!
Shallow embedding of the kadena-rust-lib command-preparation core
(src/crypto/encoding.rs, src/crypto/keypair.rs, src/crypto/crypto_error.rs,
src/pact/command.rs, src/pact/command_error.rs, src/pact/meta.rs,
src/pact/cap.rs), together with theorems settling the frozen claims.

Modelling conventions:
* Rust byte slices and `Vec<u8>` are `List Nat` with values below 256
  (the predicate `ByteList`); Rust `String`/`&str` are Lean `String`.
* Fallible Rust functions returning `Result` are embedded as `Except`;
  functions that can also abort via `unwrap` on an un-checked conversion
  are embedded as `PResult`, which has an explicit `panic` outcome.
* The third-party crates `ed25519-dalek` (key derivation, signing,
  verification) and `blake2` are external collaborators, not code of this
  repository.  They are passed in as explicit parameters: an `Ed25519`
  record of functions (with the laws a correct Ed25519 implementation
  satisfies collected in `Ed25519.Correct`) and a `blake : List Nat →
  List Nat` digest function.  The `hex` and `base64` crates implement
  exactly specified encodings, so those are embedded concretely.
* `serde_json` serialization of the derived `Serialize` instances is
  embedded concretely as a `Json` syntax tree (fields in struct
  declaration order, serde renames applied, `Option` mapped to the value
  or JSON `null`) rendered compactly, matching `serde_json::to_string`.
  The one `f64` field (`gas_price`) is represented by its rendered
  decimal literal, since floating point does not shallow-embed; no claim
  depends on its numeric value.
-/

namespace Kadena

/-- Bytes: every element of the list is below 256.  Rust's `u8` values. -/
abbrev ByteList (l : List Nat) : Prop := ∀ b ∈ l, b < 256

/-! ### src/crypto/crypto_error.rs -/

/-- `CryptoError` from src/crypto/crypto_error.rs.  The payloads of the
Rust variants (`hex::FromHexError`, `base64::DecodeError`,
`ed25519_dalek::SignatureError`) are dropped: no claim distinguishes
them. -/
inductive CryptoError where
  | hexError
  | base64Error
  | ed25519Error
  | invalidSeedLength
deriving DecidableEq, Repr

/-! ### src/pact/command_error.rs -/

/-- `CommandError` from src/pact/command_error.rs. -/
inductive CommandError where
  | serializationError
  | base64Error (e : CryptoError)
  | signingError
deriving DecidableEq, Repr

/-- Outcome of a Rust computation that may also abort the process
(`unwrap` on a failed conversion): ok, a typed error, or a panic. -/
inductive PResult (ε α : Type) where
  | ok (a : α)
  | err (e : ε)
  | panic
deriving DecidableEq, Repr

def PResult.toOption : PResult ε α → Option α
  | .ok a => some a
  | .err _ => none
  | .panic => none

def PResult.isPanic : PResult ε α → Bool
  | .ok _ => false
  | .err _ => false
  | .panic => true

def PResult.isOk : PResult ε α → Bool
  | .ok _ => true
  | .err _ => false
  | .panic => false

def PResult.getOk (r : PResult ε α) (d : α) : α :=
  match r with
  | .ok a => a
  | .err _ => d
  | .panic => d

/-! ### src/crypto/encoding.rs — hex (the `hex` crate) -/

/-- Lowercase hex digit for a value below 16, as produced by
`hex::encode`. -/
def hexDigitChar (n : Nat) : Char :=
  if n < 10 then Char.ofNat (48 + n) else Char.ofNat (87 + n)

/-- `hex::encode`: two lowercase hex digits per byte, high nibble
first. -/
def hexChars : List Nat → List Char
  | [] => []
  | b :: bs => hexDigitChar (b / 16) :: hexDigitChar (b % 16) :: hexChars bs

/-- `bin_to_hex` from src/crypto/encoding.rs. -/
def bin_to_hex (data : List Nat) : String :=
  String.mk (hexChars data)

/-- Value of one hex digit as accepted by `hex::decode`
(`0-9`, `a-f`, `A-F`). -/
def hexVal (c : Char) : Option Nat :=
  if 48 ≤ c.toNat ∧ c.toNat ≤ 57 then some (c.toNat - 48)
  else if 97 ≤ c.toNat ∧ c.toNat ≤ 102 then some (c.toNat - 87)
  else if 65 ≤ c.toNat ∧ c.toNat ≤ 70 then some (c.toNat - 55)
  else none

/-- `hex::decode`: pairs of hex digits; odd length or a non-hex digit
is an error (the two `FromHexError` cases both become `hexError`). -/
def hexPairs : List Char → Except CryptoError (List Nat)
  | [] => .ok []
  | [_] => .error .hexError
  | c1 :: c2 :: rest =>
    match hexVal c1, hexVal c2 with
    | some h, some l =>
      match hexPairs rest with
      | .ok bs => .ok ((h * 16 + l) :: bs)
      | .error e => .error e
    | _, _ => .error .hexError

/-- `hex_to_bin` from src/crypto/encoding.rs. -/
def hex_to_bin (s : String) : Except CryptoError (List Nat) :=
  hexPairs s.data

/-! ### src/crypto/encoding.rs — base64url, no padding (the `base64`
crate, engine `general_purpose::URL_SAFE_NO_PAD`) -/

/-- RFC 4648 URL-safe alphabet character for a 6-bit value. -/
def b64Char (n : Nat) : Char :=
  if n < 26 then Char.ofNat (65 + n)
  else if n < 52 then Char.ofNat (97 + (n - 26))
  else if n < 62 then Char.ofNat (48 + (n - 52))
  else if n = 62 then Char.ofNat 45
  else Char.ofNat 95

/-- Inverse of the URL-safe alphabet; anything else (including `=`,
since the engine requires no padding) is rejected. -/
def b64Val (c : Char) : Option Nat :=
  if 65 ≤ c.toNat ∧ c.toNat ≤ 90 then some (c.toNat - 65)
  else if 97 ≤ c.toNat ∧ c.toNat ≤ 122 then some (26 + (c.toNat - 97))
  else if 48 ≤ c.toNat ∧ c.toNat ≤ 57 then some (52 + (c.toNat - 48))
  else if c.toNat = 45 then some 62
  else if c.toNat = 95 then some 63
  else none

/-- Unpadded base64url encoding: 3 bytes → 4 characters, a final byte
→ 2 characters, two final bytes → 3 characters. -/
def b64Chars : List Nat → List Char
  | [] => []
  | [b0] => [b64Char (b0 / 4), b64Char (b0 % 4 * 16)]
  | [b0, b1] =>
    [b64Char (b0 / 4), b64Char (b0 % 4 * 16 + b1 / 16), b64Char (b1 % 16 * 4)]
  | b0 :: b1 :: b2 :: rest =>
    b64Char (b0 / 4) :: b64Char (b0 % 4 * 16 + b1 / 16) ::
      b64Char (b1 % 16 * 4 + b2 / 64) :: b64Char (b2 % 64) :: b64Chars rest

/-- `base64url_encode` from src/crypto/encoding.rs. -/
def base64url_encode (input : List Nat) : String :=
  String.mk (b64Chars input)

/-- Unpadded base64url decoding as performed by the
`URL_SAFE_NO_PAD` engine: groups of 4 characters, a trailing group of
2 or 3; a trailing group of 1 is an invalid length; the engine's
default config rejects non-zero trailing bits in the final character
(`DecodeError::InvalidLastSymbol`).  All error cases become
`base64Error`. -/
def b64Decode : List Char → Except CryptoError (List Nat)
  | [] => .ok []
  | [_] => .error .base64Error
  | [c0, c1] =>
    match b64Val c0, b64Val c1 with
    | some v0, some v1 =>
      if v1 % 16 = 0 then .ok [v0 * 4 + v1 / 16] else .error .base64Error
    | _, _ => .error .base64Error
  | [c0, c1, c2] =>
    match b64Val c0, b64Val c1, b64Val c2 with
    | some v0, some v1, some v2 =>
      if v2 % 4 = 0 then .ok [v0 * 4 + v1 / 16, v1 % 16 * 16 + v2 / 4]
      else .error .base64Error
    | _, _, _ => .error .base64Error
  | c0 :: c1 :: c2 :: c3 :: rest =>
    match b64Val c0, b64Val c1, b64Val c2, b64Val c3 with
    | some v0, some v1, some v2, some v3 =>
      match b64Decode rest with
      | .ok bs =>
        .ok ((v0 * 4 + v1 / 16) :: (v1 % 16 * 16 + v2 / 4) :: (v2 % 4 * 64 + v3) :: bs)
      | .error e => .error e
    | _, _, _, _ => .error .base64Error

/-- `base64url_decode` from src/crypto/encoding.rs. -/
def base64url_decode (s : String) : Except CryptoError (List Nat) :=
  b64Decode s.data

/-! ### Round-trip lemmas for the encodings -/

theorem hexVal_hexDigitChar : ∀ n < 16, hexVal (hexDigitChar n) = some n := by
  decide

theorem hexPairs_hexChars (x : List Nat) (hx : ByteList x) :
    hexPairs (hexChars x) = .ok x := by
  match x with
  | [] => rfl
  | b :: bs =>
    have hb : b < 256 := hx b (by simp)
    have ih : hexPairs (hexChars bs) = .ok bs :=
      hexPairs_hexChars bs (fun a ha => hx a (by simp [ha]))
    have e1 : hexVal (hexDigitChar (b / 16)) = some (b / 16) :=
      hexVal_hexDigitChar _ (by omega)
    have e2 : hexVal (hexDigitChar (b % 16)) = some (b % 16) :=
      hexVal_hexDigitChar _ (by omega)
    have hrec : b / 16 * 16 + b % 16 = b := by omega
    simp only [hexChars, hexPairs, e1, e2, ih, hrec]

/-- Hex round trip: decoding the encoding of any byte sequence
recovers it. -/
theorem hex_to_bin_bin_to_hex (x : List Nat) (hx : ByteList x) :
    hex_to_bin (bin_to_hex x) = .ok x :=
  hexPairs_hexChars x hx

theorem b64Val_b64Char : ∀ n < 64, b64Val (b64Char n) = some n := by
  decide

theorem b64Decode_b64Chars (x : List Nat) (hx : ByteList x) :
    b64Decode (b64Chars x) = .ok x := by
  match x with
  | [] => rfl
  | [b0] =>
    have hb0 : b0 < 256 := hx b0 (by simp)
    have e0 : b64Val (b64Char (b0 / 4)) = some (b0 / 4) :=
      b64Val_b64Char _ (by omega)
    have e1 : b64Val (b64Char (b0 % 4 * 16)) = some (b0 % 4 * 16) :=
      b64Val_b64Char _ (by omega)
    have hmod : b0 % 4 * 16 % 16 = 0 := by omega
    have hrec : b0 / 4 * 4 + b0 % 4 * 16 / 16 = b0 := by omega
    simp only [b64Chars, b64Decode, e0, e1]
    rw [if_pos hmod, hrec]
  | [b0, b1] =>
    have hb0 : b0 < 256 := hx b0 (by simp)
    have hb1 : b1 < 256 := hx b1 (by simp)
    have e0 : b64Val (b64Char (b0 / 4)) = some (b0 / 4) :=
      b64Val_b64Char _ (by omega)
    have e1 : b64Val (b64Char (b0 % 4 * 16 + b1 / 16))
        = some (b0 % 4 * 16 + b1 / 16) :=
      b64Val_b64Char _ (by omega)
    have e2 : b64Val (b64Char (b1 % 16 * 4)) = some (b1 % 16 * 4) :=
      b64Val_b64Char _ (by omega)
    have hmod : b1 % 16 * 4 % 4 = 0 := by omega
    have hrec0 : b0 / 4 * 4 + (b0 % 4 * 16 + b1 / 16) / 16 = b0 := by omega
    have hrec1 : (b0 % 4 * 16 + b1 / 16) % 16 * 16 + b1 % 16 * 4 / 4 = b1 := by
      omega
    simp only [b64Chars, b64Decode, e0, e1, e2]
    rw [if_pos hmod, hrec0, hrec1]
  | b0 :: b1 :: b2 :: b3 :: rest =>
    have hb0 : b0 < 256 := hx b0 (by simp)
    have hb1 : b1 < 256 := hx b1 (by simp)
    have hb2 : b2 < 256 := hx b2 (by simp)
    have ih : b64Decode (b64Chars (b3 :: rest)) = .ok (b3 :: rest) :=
      b64Decode_b64Chars (b3 :: rest)
        (fun a ha =>
          hx a (List.mem_cons_of_mem _ (List.mem_cons_of_mem _
            (List.mem_cons_of_mem _ ha))))
    have e0 : b64Val (b64Char (b0 / 4)) = some (b0 / 4) :=
      b64Val_b64Char _ (by omega)
    have e1 : b64Val (b64Char (b0 % 4 * 16 + b1 / 16))
        = some (b0 % 4 * 16 + b1 / 16) :=
      b64Val_b64Char _ (by omega)
    have e2 : b64Val (b64Char (b1 % 16 * 4 + b2 / 64))
        = some (b1 % 16 * 4 + b2 / 64) :=
      b64Val_b64Char _ (by omega)
    have e3 : b64Val (b64Char (b2 % 64)) = some (b2 % 64) :=
      b64Val_b64Char _ (by omega)
    have hrec0 : b0 / 4 * 4 + (b0 % 4 * 16 + b1 / 16) / 16 = b0 := by omega
    have hrec1 : (b0 % 4 * 16 + b1 / 16) % 16 * 16 + (b1 % 16 * 4 + b2 / 64) / 4
        = b1 := by omega
    have hrec2 : (b1 % 16 * 4 + b2 / 64) % 4 * 64 + b2 % 64 = b2 := by omega
    simp only [b64Chars, b64Decode, e0, e1, e2, e3, ih, hrec0, hrec1, hrec2]
  | [b0, b1, b2] =>
    have hb0 : b0 < 256 := hx b0 (by simp)
    have hb1 : b1 < 256 := hx b1 (by simp)
    have hb2 : b2 < 256 := hx b2 (by simp)
    have e0 : b64Val (b64Char (b0 / 4)) = some (b0 / 4) :=
      b64Val_b64Char _ (by omega)
    have e1 : b64Val (b64Char (b0 % 4 * 16 + b1 / 16))
        = some (b0 % 4 * 16 + b1 / 16) :=
      b64Val_b64Char _ (by omega)
    have e2 : b64Val (b64Char (b1 % 16 * 4 + b2 / 64))
        = some (b1 % 16 * 4 + b2 / 64) :=
      b64Val_b64Char _ (by omega)
    have e3 : b64Val (b64Char (b2 % 64)) = some (b2 % 64) :=
      b64Val_b64Char _ (by omega)
    have hrec0 : b0 / 4 * 4 + (b0 % 4 * 16 + b1 / 16) / 16 = b0 := by omega
    have hrec1 : (b0 % 4 * 16 + b1 / 16) % 16 * 16 + (b1 % 16 * 4 + b2 / 64) / 4
        = b1 := by omega
    have hrec2 : (b1 % 16 * 4 + b2 / 64) % 4 * 64 + b2 % 64 = b2 := by omega
    simp only [b64Chars, b64Decode, e0, e1, e2, e3, hrec0, hrec1, hrec2]

/-- Base64url round trip: decoding the encoding of any byte sequence
recovers it. -/
theorem base64url_decode_encode (x : List Nat) (hx : ByteList x) :
    base64url_decode (base64url_encode x) = .ok x :=
  b64Decode_b64Chars x hx

/-- A successfully decoded hex digit is below 16. -/
theorem hexVal_lt (c : Char) (v : Nat) (h : hexVal c = some v) : v < 16 := by
  unfold hexVal at h
  split at h
  · cases h; omega
  split at h
  · cases h; omega
  split at h
  · cases h; omega
  · cases h

/-- Bytes produced by a successful hex decode are below 256. -/
theorem hexPairs_bytes : ∀ (cs : List Char) (b : List Nat),
    hexPairs cs = .ok b → ByteList b := by
  intro cs
  match cs with
  | [] =>
    intro b hb
    rw [show hexPairs [] = .ok [] from rfl] at hb
    cases hb
    intro a ha
    cases ha
  | [c] =>
    intro b hb
    simp only [hexPairs] at hb
    exact Except.noConfusion hb
  | c1 :: c2 :: rest =>
    intro b hb
    simp only [hexPairs] at hb
    cases h1 : hexVal c1 <;> rw [h1] at hb
    case none => simp at hb
    case some h =>
      cases h2 : hexVal c2 <;> rw [h2] at hb
      case none => simp at hb
      case some l =>
        cases hr : hexPairs rest <;> rw [hr] at hb
        case error e => simp at hb
        case ok bs =>
          simp only [Except.ok.injEq] at hb
          subst hb
          have hbs := hexPairs_bytes rest bs hr
          have hh : h < 16 := hexVal_lt c1 h h1
          have hl : l < 16 := hexVal_lt c2 l h2
          intro a ha
          rcases List.mem_cons.mp ha with rfl | ha2
          · omega
          · exact hbs a ha2

theorem hex_to_bin_bytes (s : String) (b : List Nat)
    (h : hex_to_bin s = .ok b) : ByteList b :=
  hexPairs_bytes s.data b h

/-- The lowercase hex alphabet, as a character list. -/
def lowerHexChars : List Char :=
  ("0123456789abcdef" : String).data

theorem hexDigitChar_mem_lower : ∀ n < 16, hexDigitChar n ∈ lowerHexChars := by
  decide

/-- `bin_to_hex` of bytes only produces lowercase hex characters. -/
theorem bin_to_hex_lower (x : List Nat) (hx : ByteList x) :
    ∀ c ∈ (bin_to_hex x).data, c ∈ lowerHexChars := by
  show ∀ c ∈ hexChars x, c ∈ lowerHexChars
  match x with
  | [] => intro c hc; cases hc
  | b :: bs =>
    have hb : b < 256 := hx b (by simp)
    have ih := bin_to_hex_lower bs (fun a ha => hx a (by simp [ha]))
    intro c hc
    rcases List.mem_cons.mp hc with rfl | hc2
    · exact hexDigitChar_mem_lower _ (by omega)
    rcases List.mem_cons.mp hc2 with rfl | hc3
    · exact hexDigitChar_mem_lower _ (by omega)
    · exact ih c hc3

/-! ### serde_json model

A JSON syntax tree plus the compact renderer, matching what
`serde_json::to_string` produces for the derived `Serialize`
instances.  `num` carries the rendered numeric literal; `u64` fields
use their decimal digits. -/

inductive Json where
  | null
  | bool (b : Bool)
  | num (lit : String)
  | str (s : String)
  | arr (elems : List Json)
  | obj (fields : List (String × Json))

/-- serde_json string escaping: `"` and backslash get a backslash,
the control characters with short forms use them, other control
characters become a lowercase `\u00xx` escape, everything else is
emitted as-is. -/
def escapeChar (c : Char) : List Char :=
  if c = '"' then ['\\', '"']
  else if c = '\\' then ['\\', '\\']
  else if c.toNat = 8 then ['\\', 'b']
  else if c.toNat = 9 then ['\\', 't']
  else if c.toNat = 10 then ['\\', 'n']
  else if c.toNat = 12 then ['\\', 'f']
  else if c.toNat = 13 then ['\\', 'r']
  else if c.toNat < 32 then
    ['\\', 'u', '0', '0', hexDigitChar (c.toNat / 16), hexDigitChar (c.toNat % 16)]
  else [c]

/-- A JSON string literal: quotes around the escaped characters. -/
def renderStr (s : String) : List Char :=
  '"' :: s.data.foldr (fun c acc => escapeChar c ++ acc) ['"']

mutual

/-- Compact rendering, as `serde_json::to_string`: no whitespace,
fields in declaration order. -/
def Json.renderChars : Json → List Char
  | .null => ("null" : String).data
  | .bool true => ("true" : String).data
  | .bool false => ("false" : String).data
  | .num lit => lit.data
  | .str s => renderStr s
  | .arr xs => '[' :: renderElems xs ++ [']']
  | .obj fs => Char.ofNat 123 :: renderFields fs ++ [Char.ofNat 125]

def renderElems : List Json → List Char
  | [] => []
  | [x] => Json.renderChars x
  | x :: y :: xs => Json.renderChars x ++ ',' :: renderElems (y :: xs)

def renderFields : List (String × Json) → List Char
  | [] => []
  | [(k, v)] => renderStr k ++ ':' :: Json.renderChars v
  | (k, v) :: f :: fs =>
    renderStr k ++ ':' :: Json.renderChars v ++ ',' :: renderFields (f :: fs)

end

def Json.render (j : Json) : String :=
  String.mk j.renderChars

/-- Field lookup in a JSON object (first match, as a JSON reader
would resolve the key). -/
def lookupField : List (String × Json) → String → Option Json
  | [], _ => none
  | (k, v) :: fs, key => if k = key then some v else lookupField fs key

def Json.getField : Json → String → Option Json
  | .obj fs, key => lookupField fs key
  | _, _ => none

/-! ### src/pact/cap.rs and src/pact/meta.rs -/

/-- `Cap` from src/pact/cap.rs: a named capability with ordered
`serde_json::Value` arguments. -/
structure Cap where
  name : String
  args : List Json

/-- `Cap::new`. -/
def Cap.new (name : String) : Cap :=
  { name := name, args := [] }

/-- `Cap::with_args`. -/
def Cap.with_args (name : String) (args : List Json) : Cap :=
  { name := name, args := args }

/-- Serde serialization of `Cap` (derived: `name`, then `args`). -/
def Cap.toJson (c : Cap) : Json :=
  .obj [("name", .str c.name), ("args", .arr c.args)]

/-- `Meta` from src/pact/meta.rs.  `gas_price: f64` is represented by
its serde_json-rendered decimal literal (floating point does not
shallow-embed; no claim depends on it). -/
structure Meta where
  chain_id : String
  sender : String
  gas_limit : Nat
  gas_price : String
  ttl : Nat
  creation_time : Nat

/-- `Meta::new`.  The system clock read for `creation_time` is passed
in; `0.00000001` renders as `1e-8` under serde_json. -/
def Meta.new (chain_id sender : String) (now : Nat) : Meta :=
  { chain_id := chain_id, sender := sender, gas_limit := 1500,
    gas_price := "1e-8", ttl := 3600, creation_time := now }

/-- Serde serialization of `Meta` (field renames from the serde
attributes). -/
def Meta.toJson (m : Meta) : Json :=
  .obj [("chainId", .str m.chain_id), ("sender", .str m.sender),
        ("gasLimit", .num (toString m.gas_limit)),
        ("gasPrice", .num m.gas_price),
        ("ttl", .num (toString m.ttl)),
        ("creationTime", .num (toString m.creation_time))]

/-! ### src/crypto/keypair.rs

The `ed25519-dalek` primitives are external collaborators.  They are
modelled as a record of pure functions; `Ed25519.Correct` collects
the laws a correct Ed25519 implementation provides, which theorems
take as a hypothesis. -/

/-- The ed25519-dalek surface used by the repository:
* `derivePub`: `SigningKey::from_bytes(...).verifying_key()` as bytes;
* `sign`: `SigningKey::try_sign` (infallible for `SigningKey`);
* `validPub`: whether 32 bytes are accepted by
  `VerifyingKey::from_bytes`;
* `verify`: `VerifyingKey::verify(msg, sig).is_ok()`. -/
structure Ed25519 where
  derivePub : List Nat → List Nat
  sign : List Nat → List Nat → List Nat
  validPub : List Nat → Bool
  verify : (pub : List Nat) → (msg : List Nat) → (sig : List Nat) → Bool

/-- Laws of a correct Ed25519 implementation over 32 bytes of seed:
sizes, byte ranges, derived keys parse, and a signature produced from
a seed verifies under the derived public key. -/
structure Ed25519.Correct (E : Ed25519) : Prop where
  derive_len : ∀ s, s.length = 32 → ByteList s → (E.derivePub s).length = 32
  derive_bytes : ∀ s, s.length = 32 → ByteList s → ByteList (E.derivePub s)
  sign_len : ∀ s m, s.length = 32 → ByteList s → (E.sign s m).length = 64
  sign_bytes : ∀ s m, s.length = 32 → ByteList s → ByteList (E.sign s m)
  valid_derived : ∀ s, s.length = 32 → ByteList s →
    E.validPub (E.derivePub s) = true
  verify_sign : ∀ s m, s.length = 32 → ByteList s →
    E.verify (E.derivePub s) m (E.sign s m) = true

/-- `PactKeypair` from src/crypto/keypair.rs: both keys stored as hex
strings. -/
structure PactKeypair where
  public_key : String
  secret_key : String
deriving DecidableEq, Repr

/-- `PactKeypair::generate`.  The 32 random bytes drawn from `OsRng`
are passed in. -/
def PactKeypair.generate (E : Ed25519) (randomBytes : List Nat) : PactKeypair :=
  { public_key := bin_to_hex (E.derivePub randomBytes),
    secret_key := bin_to_hex randomBytes }

/-- `PactKeypair::from_secret_key`: hex-decode the seed, reject any
length other than 32 (`InvalidSeedLength`), derive the public key,
and store the seed string as given. -/
def PactKeypair.from_secret_key (E : Ed25519) (seed : String) :
    Except CryptoError PactKeypair :=
  match hex_to_bin seed with
  | .error e => .error e
  | .ok secret_bytes =>
    if secret_bytes.length ≠ 32 then .error .invalidSeedLength
    else
      .ok { public_key := bin_to_hex (E.derivePub secret_bytes),
            secret_key := seed }

/-- `PactKeypair::sign`: hex-decode the stored secret key (`?`
propagates a hex error), then `secret_bytes.try_into().unwrap()` —
the `unwrap` ABORTS when the decoded length is not 32, since no
length check precedes it; `try_sign` itself is infallible for
`SigningKey`, so its `?` never fires. -/
def PactKeypair.sign (E : Ed25519) (kp : PactKeypair) (msg : List Nat) :
    PResult CryptoError String :=
  match hex_to_bin kp.secret_key with
  | .error e => .err e
  | .ok secret_bytes =>
    if secret_bytes.length = 32 then
      .ok (bin_to_hex (E.sign secret_bytes msg))
    else
      .panic

/-- `verify_signature` from src/crypto/keypair.rs: hex-decode the
signature, then the public key (`?` propagates hex errors); a decoded
public key length other than 32 is `InvalidSeedLength`;
`Signature::from_slice` rejects a decoded signature length other than
64 (an ed25519 error); `VerifyingKey::from_bytes` rejects bytes that
are not a valid verifying key (an ed25519 error); otherwise the
verification outcome. -/
def verify_signature (E : Ed25519) (msg : List Nat)
    (signature public_key : String) : Except CryptoError Bool :=
  match hex_to_bin signature with
  | .error e => .error e
  | .ok sig_bytes =>
    match hex_to_bin public_key with
    | .error e => .error e
    | .ok pub_bytes =>
      if pub_bytes.length ≠ 32 then .error .invalidSeedLength
      else if sig_bytes.length ≠ 64 then .error .ed25519Error
      else if E.validPub pub_bytes then .ok (E.verify pub_bytes msg sig_bytes)
      else .error .ed25519Error

/-- `PactKeypair::verify` delegates to `verify_signature` with the
stored public key. -/
def PactKeypair.verify (E : Ed25519) (kp : PactKeypair) (msg : List Nat)
    (signature : String) : Except CryptoError Bool :=
  verify_signature E msg signature kp.public_key

/-- UTF-8 encoding of one character (`str::as_bytes`). -/
def utf8Bytes (c : Char) : List Nat :=
  let n := c.toNat
  if n < 128 then [n]
  else if n < 2048 then [192 + n / 64, 128 + n % 64]
  else if n < 65536 then [224 + n / 4096, 128 + n / 64 % 64, 128 + n % 64]
  else [240 + n / 262144, 128 + n / 4096 % 64, 128 + n / 64 % 64, 128 + n % 64]

/-- `String::as_bytes`: UTF-8 bytes of the string. -/
def strBytes (s : String) : List Nat :=
  s.data.foldr (fun c acc => utf8Bytes c ++ acc) []

/-- `hash` from src/crypto/keypair.rs: the Blake2b-256 digest (the
external `blake2` crate, passed in as `blake`), base64url-encoded. -/
def hash (blake : List Nat → List Nat) (data : List Nat) : String :=
  base64url_encode (blake data)

/-! ### src/pact/command.rs -/

/-- `SignaturePayload`. -/
structure SignaturePayload where
  sig : String
deriving DecidableEq, Repr

/-- `SignaturePayload::new`. -/
def SignaturePayload.new (sig : String) : SignaturePayload :=
  { sig := sig }

/-- `CommandSigner`. -/
structure CommandSigner where
  scheme : String
  pub_key : String
  clist : List Cap

/-- `CommandSigner::new_ed25519`. -/
def CommandSigner.new_ed25519 (pub_key : String) (caps : List Cap) :
    CommandSigner :=
  { scheme := "ED25519", pub_key := pub_key, clist := caps }

/-- Serde serialization of `CommandSigner` (`pubKey` rename). -/
def CommandSigner.toJson (s : CommandSigner) : Json :=
  .obj [("scheme", .str s.scheme), ("pubKey", .str s.pub_key),
        ("clist", .arr (s.clist.map Cap.toJson))]

/-- `CommandVerifier`. -/
structure CommandVerifier where
  name : String
  proof : String
  clist : List Cap

/-- `CommandVerifier::new_verifier`. -/
def CommandVerifier.new_verifier (name proof : String) (caps : List Cap) :
    CommandVerifier :=
  { name := name, proof := proof, clist := caps }

/-- Serde serialization of `CommandVerifier`. -/
def CommandVerifier.toJson (v : CommandVerifier) : Json :=
  .obj [("name", .str v.name), ("proof", .str v.proof),
        ("clist", .arr (v.clist.map Cap.toJson))]

/-- `ExecCommand`.  Its derived `Default` has `code = ""` and
`data = Value::Null`. -/
structure ExecCommand where
  code : String
  data : Json

def ExecCommand.default : ExecCommand :=
  { code := "", data := .null }

/-- Serde serialization of `ExecCommand`. -/
def ExecCommand.toJson (e : ExecCommand) : Json :=
  .obj [("code", .str e.code), ("data", e.data)]

/-- `ExecPayload`; derived `Default` wraps the default
`ExecCommand`. -/
structure ExecPayload where
  exec : ExecCommand

def ExecPayload.default : ExecPayload :=
  { exec := ExecCommand.default }

/-- Serde serialization of `ExecPayload`. -/
def ExecPayload.toJson (p : ExecPayload) : Json :=
  .obj [("exec", p.exec.toJson)]

/-- `CommandPayload`.  `network_id` carries serde
`rename = "networkId"` and no other attribute, so `None` serializes
as JSON `null`. -/
structure CommandPayload where
  nonce : String
  meta : Meta
  signers : List CommandSigner
  verifiers : List CommandVerifier
  network_id : Option String
  payload : ExecPayload

/-- `CommandPayload::new`: the freshly generated random nonce
(`generate_random_nonce()`) is passed in as `genNonce`. -/
def CommandPayload.new (genNonce : String) (meta : Meta) : CommandPayload :=
  { nonce := genNonce, meta := meta, signers := [], verifiers := [],
    network_id := none, payload := ExecPayload.default }

def CommandPayload.with_nonce (p : CommandPayload) (nonce : String) :
    CommandPayload :=
  { p with nonce := nonce }

def CommandPayload.with_network_id (p : CommandPayload) (network_id : String) :
    CommandPayload :=
  { p with network_id := some network_id }

def CommandPayload.with_code (p : CommandPayload) (code : String) :
    CommandPayload :=
  { p with payload := { p.payload with exec := { p.payload.exec with code := code } } }

def CommandPayload.with_signers (p : CommandPayload)
    (signers : List CommandSigner) : CommandPayload :=
  { p with signers := signers }

def CommandPayload.with_verifiers (p : CommandPayload)
    (verifiers : List CommandVerifier) : CommandPayload :=
  { p with verifiers := verifiers }

def CommandPayload.with_env_data (p : CommandPayload) (data : Json) :
    CommandPayload :=
  { p with payload := { p.payload with exec := { p.payload.exec with data := data } } }

/-- Serde serialization of `CommandPayload`: declaration order
`nonce`, `meta`, `signers`, `verifiers`, `networkId`, `payload`; the
`Option` serializes as the string or as `null`. -/
def CommandPayload.toJson (p : CommandPayload) : Json :=
  .obj [("nonce", .str p.nonce),
        ("meta", p.meta.toJson),
        ("signers", .arr (p.signers.map CommandSigner.toJson)),
        ("verifiers", .arr (p.verifiers.map CommandVerifier.toJson)),
        ("networkId", match p.network_id with
                      | some s => .str s
                      | none => .null),
        ("payload", p.payload.toJson)]

/-- `Cmd`: the signed envelope. -/
structure Cmd where
  sigs : List SignaturePayload
  cmd : String
  hash : String
deriving DecidableEq, Repr

/-- The command payload `Cmd::prepare_exec` assembles before
serializing (its steps up to `serde_json::to_string`): map each
`(keypair, caps)` pair to an ED25519 `CommandSigner` in order, start
from `CommandPayload::new` (whose random nonce is `genNonce`),
override the nonce with the caller's nonce when present (otherwise a
generated one — the same `genNonce` models both draws), set code,
signers, verifiers, and the optional network id and env data. -/
def Cmd.payloadOf (genNonce : String)
    (signers : List (PactKeypair × List Cap))
    (verifiers : List CommandVerifier) (nonce : Option String)
    (pact_code : String) (env_data : Option Json) (meta : Meta)
    (network_id : Option String) : CommandPayload :=
  let signers_data :=
    signers.map (fun p => CommandSigner.new_ed25519 p.1.public_key p.2)
  let command_payload :=
    (((((CommandPayload.new genNonce meta).with_nonce
      (match nonce with | some n => n | none => genNonce)).with_code
        pact_code).with_signers signers_data).with_verifiers verifiers)
  let command_payload :=
    match network_id with
    | some nid => command_payload.with_network_id nid
    | none => command_payload
  match env_data with
  | some d => command_payload.with_env_data d
  | none => command_payload

/-- The serialized command string: `serde_json::to_string` of the
assembled payload (infallible for this data model, so the `?` in the
source never fires). -/
def Cmd.cmdOf (genNonce : String) (signers : List (PactKeypair × List Cap))
    (verifiers : List CommandVerifier) (nonce : Option String)
    (pact_code : String) (env_data : Option Json) (meta : Meta)
    (network_id : Option String) : String :=
  Json.render (Cmd.payloadOf genNonce signers verifiers nonce pact_code
    env_data meta network_id).toJson

/-- `Cmd::prepare_exec`: serialize the payload, hash its bytes,
base64url-decode the hash back to the raw digest (`?` maps a decode
failure into `CommandError`), sign the raw digest with every signer
in order, and keep, via `filter_map(... .ok())`, only the successful
signatures.  A panic inside any `sign` call (see
`PactKeypair.sign`) aborts the whole call. -/
def Cmd.prepare_exec (E : Ed25519) (blake : List Nat → List Nat)
    (genNonce : String) (signers : List (PactKeypair × List Cap))
    (verifiers : List CommandVerifier) (nonce : Option String)
    (pact_code : String) (env_data : Option Json) (meta : Meta)
    (network_id : Option String) : PResult CommandError Cmd :=
  match base64url_decode (Kadena.hash blake (strBytes
      (Cmd.cmdOf genNonce signers verifiers nonce pact_code env_data meta
        network_id))) with
  | .error e => .err (.base64Error e)
  | .ok hash_bytes =>
    if (signers.map (fun p => PactKeypair.sign E p.1 hash_bytes)).any
        PResult.isPanic then
      .panic
    else
      .ok { sigs := (signers.map (fun p => PactKeypair.sign E p.1 hash_bytes)).filterMap
              (fun r => r.toOption.map SignaturePayload.new),
            cmd := Cmd.cmdOf genNonce signers verifiers nonce pact_code
              env_data meta network_id,
            hash := Kadena.hash blake (strBytes (Cmd.cmdOf genNonce signers
              verifiers nonce pact_code env_data meta network_id)) }

/-! ### Concrete instantiation used by witnesses

A small signature scheme satisfying `Ed25519.Correct` and a constant
digest function; witnesses evaluate the embedded code at these. -/

/-- A toy scheme satisfying the `Ed25519.Correct` laws: the public
key is the seed, a signature is the seed doubled, verification
compares against the doubled public key. -/
def edModel0 : Ed25519 where
  derivePub := fun s => s
  sign := fun s _ => s ++ s
  validPub := fun _ => true
  verify := fun pub _ sig => sig == pub ++ pub

theorem edModel0_correct : edModel0.Correct := by
  refine ⟨?_, ?_, ?_, ?_, ?_, ?_⟩
  · intro s hlen _; exact hlen
  · intro s _ hb; exact hb
  · intro s m hlen _; simp [edModel0, hlen]
  · intro s m _ hb a ha
    rcases List.mem_append.mp ha with h | h
    · exact hb a h
    · exact hb a h
  · intro s _ _; rfl
  · intro s m _ _; simp [edModel0]

/-- A stand-in digest: constant 32 zero bytes (the claims never
depend on the digest values, only on their being bytes). -/
def blake0 : List Nat → List Nat := fun _ => List.replicate 32 0

theorem blake0_bytes : ∀ d, ByteList (blake0 d) := by
  intro d a ha
  rw [List.eq_of_mem_replicate ha]
  omega

/-- 64 zero characters: the hex encoding of a 32-zero-byte seed. -/
def zeros64 : String := String.mk (List.replicate 64 '0')

/-- 128 zero characters: the hex encoding of a 64-zero-byte
signature. -/
def zeros128 : String := String.mk (List.replicate 128 '0')

/-- The keypair `generate` produces from a 32-zero-byte draw under
the toy scheme. -/
def kp0 : PactKeypair := PactKeypair.generate edModel0 (List.replicate 32 0)

/-- A concrete `Meta` value for witnesses. -/
def meta0 : Meta :=
  { chain_id := "0", sender := "k:abc", gas_limit := 1500,
    gas_price := "1e-8", ttl := 3600, creation_time := 0 }

/-- Fallback `Cmd` for reading an `ok` payload out of a `PResult`. -/
def cmd0 : Cmd := { sigs := [], cmd := "", hash := "" }

/-! ### Helper lemmas about keypairs and `prepare_exec` -/

/-- A keypair as produced by `generate` or a successful
`from_secret_key`: the stored secret key is hex for 32 bytes and the
stored public key is the hex of the derived verifying key. -/
def ValidKeypair (E : Ed25519) (kp : PactKeypair) : Prop :=
  ∃ b, hex_to_bin kp.secret_key = .ok b ∧ b.length = 32 ∧
    kp.public_key = bin_to_hex (E.derivePub b)

theorem generate_valid (E : Ed25519) (b : List Nat) (hlen : b.length = 32)
    (hb : ByteList b) : ValidKeypair E (PactKeypair.generate E b) :=
  ⟨b, hex_to_bin_bin_to_hex b hb, hlen, rfl⟩

theorem from_secret_key_valid (E : Ed25519) (s : String) (kp : PactKeypair)
    (h : PactKeypair.from_secret_key E s = .ok kp) : ValidKeypair E kp := by
  unfold PactKeypair.from_secret_key at h
  cases hdec : hex_to_bin s with
  | error e => rw [hdec] at h; exact Except.noConfusion h
  | ok b =>
    rw [hdec] at h
    dsimp only at h
    by_cases hlen : b.length = 32
    · rw [if_neg (by omega)] at h
      simp only [Except.ok.injEq] at h
      subst h
      exact ⟨b, hdec, hlen, rfl⟩
    · rw [if_pos (by omega)] at h
      exact Except.noConfusion h

/-- `sign` on a valid keypair succeeds and produces the hex of the
scheme's signature over the stored seed. -/
theorem sign_of_valid (E : Ed25519) (kp : PactKeypair) (b : List Nat)
    (hdec : hex_to_bin kp.secret_key = .ok b) (hlen : b.length = 32)
    (m : List Nat) :
    PactKeypair.sign E kp m = .ok (bin_to_hex (E.sign b m)) := by
  unfold PactKeypair.sign
  rw [hdec]
  dsimp only
  rw [if_pos hlen]

/-- `verify_signature` accepts a signature produced from a seed when
checked against the derived public key, both in their hex
encodings. -/
theorem verify_signature_of_sign (E : Ed25519) (hE : E.Correct)
    (b m : List Nat) (hlen : b.length = 32) (hb : ByteList b) :
    verify_signature E m (bin_to_hex (E.sign b m))
      (bin_to_hex (E.derivePub b)) = .ok true := by
  have hsig : hex_to_bin (bin_to_hex (E.sign b m)) = .ok (E.sign b m) :=
    hex_to_bin_bin_to_hex _ (hE.sign_bytes b m hlen hb)
  have hpub : hex_to_bin (bin_to_hex (E.derivePub b)) = .ok (E.derivePub b) :=
    hex_to_bin_bin_to_hex _ (hE.derive_bytes b hlen hb)
  unfold verify_signature
  rw [hsig, hpub]
  dsimp only
  rw [if_neg (by rw [hE.derive_len b hlen hb]; omega),
    if_neg (by rw [hE.sign_len b m hlen hb]; omega),
    if_pos (hE.valid_derived b hlen hb),
    hE.verify_sign b m hlen hb]

/-- When `f` is `some (g x)` on every element, `filterMap f` is
`map g`. -/
theorem filterMap_eq_map_of_forall_some {α β : Type} (l : List α)
    (f : α → Option β) (g : α → β) (h : ∀ x ∈ l, f x = some (g x)) :
    l.filterMap f = l.map g := by
  induction l with
  | nil => rfl
  | cons a l ih =>
    rw [List.filterMap_cons, h a (by simp), List.map_cons,
      ih (fun x hx => h x (by simp [hx]))]

/-- A list of `PResult`s that are all `ok` over a value list: keeping
the `ok` payloads (via `toOption`) mapped through `g` is mapping the
values. -/
theorem filterMap_toOption_of_all_ok {ε α β : Type} (rs : List (PResult ε α))
    (vs : List α) (g : α → β) (h : rs = vs.map PResult.ok) :
    rs.filterMap (fun r => r.toOption.map g) = vs.map g := by
  subst h
  induction vs with
  | nil => rfl
  | cons v vs ih =>
    rw [List.map_cons, List.filterMap_cons, List.map_cons, ih]
    rfl

/-- `prepare_exec` with a digest producing genuine bytes: the inner
base64url decode of the freshly encoded digest succeeds, leaving the
per-signer signing stage. -/
theorem prepare_exec_eq (E : Ed25519) (blake : List Nat → List Nat)
    (hblake : ∀ d, ByteList (blake d)) (genNonce : String)
    (signers : List (PactKeypair × List Cap))
    (verifiers : List CommandVerifier) (nonce : Option String)
    (pact_code : String) (env_data : Option Json) (meta : Meta)
    (network_id : Option String) :
    Cmd.prepare_exec E blake genNonce signers verifiers nonce pact_code
        env_data meta network_id =
      (if (signers.map (fun p => PactKeypair.sign E p.1
            (blake (strBytes (Cmd.cmdOf genNonce signers verifiers nonce
              pact_code env_data meta network_id))))).any PResult.isPanic then
        .panic
      else
        .ok { sigs := (signers.map (fun p => PactKeypair.sign E p.1
                (blake (strBytes (Cmd.cmdOf genNonce signers verifiers nonce
                  pact_code env_data meta network_id))))).filterMap
                (fun r => r.toOption.map SignaturePayload.new),
              cmd := Cmd.cmdOf genNonce signers verifiers nonce pact_code
                env_data meta network_id,
              hash := Kadena.hash blake (strBytes (Cmd.cmdOf genNonce signers
                verifiers nonce pact_code env_data meta network_id)) }) := by
  have hdec : base64url_decode (Kadena.hash blake (strBytes
      (Cmd.cmdOf genNonce signers verifiers nonce pact_code env_data meta
        network_id))) = .ok (blake (strBytes (Cmd.cmdOf genNonce signers
          verifiers nonce pact_code env_data meta network_id))) :=
    base64url_decode_encode _ (hblake _)
  unfold Cmd.prepare_exec
  rw [hdec]

/-! ### Further helper definitions and lemmas for the claims -/

/-- The decoded seed bytes stored inside a keypair (empty list when
the stored secret key is not valid hex).  Proof-support accessor, not
a source function. -/
def seedOf (kp : PactKeypair) : List Nat :=
  match hex_to_bin kp.secret_key with
  | .ok b => b
  | .error _ => []

/-- Whether `pat` is a prefix of `l` (decision procedure used to
exhibit substrings of rendered JSON). -/
def isPrefixList : List Char → List Char → Bool
  | [], _ => true
  | _, [] => false
  | p :: ps, q :: qs => p == q && isPrefixList ps qs

/-- Whether `pat` occurs contiguously inside the second list. -/
def subOccurs (pat : List Char) : List Char → Bool
  | [] => isPrefixList pat []
  | c :: rest => isPrefixList pat (c :: rest) || subOccurs pat rest

/-- 64 uppercase `A` characters: uppercase hex for 32 bytes `0xAA`. -/
def upperAA : String := String.mk (List.replicate 64 'A')

/-- A keypair whose stored secret key is not valid hex, so its `sign`
fails with a hex error (without panicking). -/
def badKp : PactKeypair := { public_key := "", secret_key := "zz" }

/-- `payloadOf` routes the `network_id` argument into the payload
unchanged. -/
theorem payloadOf_network_id (genNonce : String)
    (signers : List (PactKeypair × List Cap))
    (verifiers : List CommandVerifier) (nonce : Option String)
    (pact_code : String) (env_data : Option Json) (meta : Meta)
    (network_id : Option String) :
    (Cmd.payloadOf genNonce signers verifiers nonce pact_code env_data meta
      network_id).network_id = network_id := by
  unfold Cmd.payloadOf
  cases network_id <;> cases env_data <;> cases nonce <;> rfl

/-- `payloadOf` with a caller-supplied nonce stores that nonce. -/
theorem payloadOf_nonce (genNonce : String)
    (signers : List (PactKeypair × List Cap))
    (verifiers : List CommandVerifier) (n : String) (pact_code : String)
    (env_data : Option Json) (meta : Meta) (network_id : Option String) :
    (Cmd.payloadOf genNonce signers verifiers (some n) pact_code env_data meta
      network_id).nonce = n := by
  unfold Cmd.payloadOf
  cases network_id <;> cases env_data <;> rfl

/-- The serialized payload object always carries a `networkId` key:
the string when present, JSON `null` when absent. -/
theorem toJson_getField_networkId (P : CommandPayload) :
    P.toJson.getField "networkId" =
      some (match P.network_id with
            | some s => Json.str s
            | none => Json.null) := rfl

/-- The serialized payload object's `nonce` key holds the payload's
nonce string. -/
theorem toJson_getField_nonce (P : CommandPayload) :
    P.toJson.getField "nonce" = some (Json.str P.nonce) := rfl

/-- Whatever `prepare_exec` returns as `ok` carries the serialized
payload as `cmd` and its digest as `hash`. -/
theorem prepare_ok_cmd (E : Ed25519) (blake : List Nat → List Nat)
    (genNonce : String) (signers : List (PactKeypair × List Cap))
    (verifiers : List CommandVerifier) (nonce : Option String)
    (pact_code : String) (env_data : Option Json) (meta : Meta)
    (network_id : Option String) (c : Cmd)
    (h : Cmd.prepare_exec E blake genNonce signers verifiers nonce pact_code
      env_data meta network_id = .ok c) :
    c.cmd = Cmd.cmdOf genNonce signers verifiers nonce pact_code env_data meta
        network_id ∧
    c.hash = Kadena.hash blake (strBytes (Cmd.cmdOf genNonce signers verifiers
      nonce pact_code env_data meta network_id)) := by
  unfold Cmd.prepare_exec at h
  cases hdec : base64url_decode (Kadena.hash blake (strBytes
      (Cmd.cmdOf genNonce signers verifiers nonce pact_code env_data meta
        network_id))) with
  | error e => rw [hdec] at h; exact PResult.noConfusion h
  | ok hb =>
    rw [hdec] at h
    dsimp only at h
    split at h
    · exact PResult.noConfusion h
    · simp only [PResult.ok.injEq] at h
      subst h
      exact ⟨rfl, rfl⟩

/-! ### Claim theorems -/

/-- C2: for every byte sequence `x`, `hex_to_bin (bin_to_hex x)`
returns `Ok x`, and `base64url_decode (base64url_encode x)` returns
`Ok x`. -/
theorem encoding_roundtrip (x : List Nat) (hx : ByteList x) :
    hex_to_bin (bin_to_hex x) = .ok x ∧
    base64url_decode (base64url_encode x) = .ok x :=
  ⟨hex_to_bin_bin_to_hex x hx, base64url_decode_encode x hx⟩

theorem encoding_roundtrip_witness :
    ByteList [0, 16, 127, 255] ∧
    (hex_to_bin (bin_to_hex [0, 16, 127, 255]) = .ok [0, 16, 127, 255] ∧
     base64url_decode (base64url_encode [0, 16, 127, 255]) =
       .ok [0, 16, 127, 255]) :=
  ⟨by decide, encoding_roundtrip [0, 16, 127, 255] (by decide)⟩

/-- C3: for every keypair produced by `generate` or by a successful
`from_secret_key`, and every message, `sign` succeeds and `verify`
accepts the produced signature (given a correct Ed25519
implementation). -/
theorem sign_then_verify_ok (E : Ed25519) (hE : E.Correct)
    (kp : PactKeypair)
    (hkp : (∃ b, b.length = 32 ∧ ByteList b ∧ kp = PactKeypair.generate E b) ∨
           (∃ s, PactKeypair.from_secret_key E s = .ok kp))
    (m : List Nat) :
    ∃ sig, PactKeypair.sign E kp m = .ok sig ∧
      PactKeypair.verify E kp m sig = .ok true := by
  have hv : ValidKeypair E kp := by
    rcases hkp with ⟨b, hlen, hb, rfl⟩ | ⟨s, hs⟩
    · exact generate_valid E b hlen hb
    · exact from_secret_key_valid E s kp hs
  obtain ⟨b, hdec, hlen, hpub⟩ := hv
  have hb : ByteList b := hex_to_bin_bytes _ _ hdec
  refine ⟨bin_to_hex (E.sign b m), sign_of_valid E kp b hdec hlen m, ?_⟩
  unfold PactKeypair.verify
  rw [hpub]
  exact verify_signature_of_sign E hE b m hlen hb

theorem sign_then_verify_ok_witness :
    ∃ sig, PactKeypair.sign edModel0 kp0 [1, 2, 3] = .ok sig ∧
      PactKeypair.verify edModel0 kp0 [1, 2, 3] sig = .ok true :=
  sign_then_verify_ok edModel0 edModel0_correct kp0
    (Or.inl ⟨List.replicate 32 0, by simp, by decide, rfl⟩) [1, 2, 3]

/-- C5: `PactKeypair::sign` on a keypair whose stored secret key is
valid hex decoding to a length other than 32 bytes does NOT return a
typed error — the `secret_bytes.try_into().unwrap()` in
src/crypto/keypair.rs line 93 panics ("00" decodes to a single
byte). -/
theorem sign_panics_on_wrong_length_seed :
    PactKeypair.sign edModel0 { public_key := "", secret_key := "00" } [] =
      .panic := rfl

/-- C7: `from_secret_key` on valid hex fails with `InvalidSeedLength`
exactly when the decoded length is not 32, and otherwise returns the
keypair whose public key is the hex of the deterministic Ed25519
derivation from the 32 seed bytes (no independent public key is
accepted: the stored public key is computed, never passed in). -/
theorem from_secret_key_spec (E : Ed25519) (s : String) (b : List Nat)
    (hdec : hex_to_bin s = .ok b) :
    (b.length ≠ 32 →
      PactKeypair.from_secret_key E s = .error .invalidSeedLength) ∧
    (b.length = 32 →
      PactKeypair.from_secret_key E s =
        .ok { public_key := bin_to_hex (E.derivePub b), secret_key := s }) := by
  unfold PactKeypair.from_secret_key
  rw [hdec]
  dsimp only
  constructor
  · intro h
    rw [if_pos h]
  · intro h
    rw [if_neg (by omega)]

theorem from_secret_key_spec_witness :
    PactKeypair.from_secret_key edModel0 "00" = .error .invalidSeedLength ∧
    PactKeypair.from_secret_key edModel0 zeros64 =
      .ok { public_key := bin_to_hex (edModel0.derivePub (List.replicate 32 0)),
            secret_key := zeros64 } :=
  ⟨(from_secret_key_spec edModel0 "00" [0] rfl).1 (by decide),
   (from_secret_key_spec edModel0 zeros64 (List.replicate 32 0) rfl).2 (by simp)⟩

/-- C10: a successful `from_secret_key` stores the seed string
character-for-character (uppercase hex stays uppercase), while the
derived public key is always lowercase hex of the 32 verifying-key
bytes; `sign` re-decodes the stored string on each call and signs
with the seed it denotes. -/
theorem from_secret_key_stores_seed_verbatim (E : Ed25519) (hE : E.Correct)
    (s : String) (b : List Nat) (hdec : hex_to_bin s = .ok b)
    (hlen : b.length = 32) :
    ∃ kp, PactKeypair.from_secret_key E s = .ok kp ∧
      kp.secret_key = s ∧
      kp.public_key = bin_to_hex (E.derivePub b) ∧
      (∀ c ∈ kp.public_key.data, c ∈ lowerHexChars) ∧
      (∀ m, PactKeypair.sign E kp m = .ok (bin_to_hex (E.sign b m))) := by
  have hb : ByteList b := hex_to_bin_bytes _ _ hdec
  refine ⟨{ public_key := bin_to_hex (E.derivePub b), secret_key := s },
    ?_, rfl, rfl, bin_to_hex_lower _ (hE.derive_bytes b hlen hb),
    fun m => sign_of_valid E _ b hdec hlen m⟩
  unfold PactKeypair.from_secret_key
  rw [hdec]
  dsimp only
  rw [if_neg (by omega)]

theorem from_secret_key_stores_seed_verbatim_witness :
    PactKeypair.from_secret_key edModel0 upperAA =
      .ok { public_key := bin_to_hex (edModel0.derivePub
              (List.replicate 32 170)),
            secret_key := upperAA } := by
  obtain ⟨kp, h1, h2, h3, _, _⟩ :=
    from_secret_key_stores_seed_verbatim edModel0 edModel0_correct upperAA
      (List.replicate 32 170) rfl (by simp)
  cases kp
  cases h2
  cases h3
  exact h1

/-- C8 (counterexample to the claim as stated): a wrong-length
decoded public key makes `verify_signature` fail with
`InvalidSeedLength`, which is not one of the decoding errors
(hex/base64) — the claim says a wrong decoded length yields a
DecodingError. -/
theorem verify_wrong_length_not_decoding_error :
    verify_signature edModel0 [] "0000" "0000" = .error .invalidSeedLength ∧
    CryptoError.invalidSeedLength ≠ CryptoError.hexError ∧
    CryptoError.invalidSeedLength ≠ CryptoError.base64Error :=
  ⟨rfl, by decide, by decide⟩

/-- C8 (amended): `verify_signature` propagates the hex decoding
error when the signature or the stored public key is not valid hex;
fails with `InvalidSeedLength` (not a decoding error) when the
decoded public key length is not 32; fails with an ed25519 error when
the decoded signature length is not 64 or the public key bytes are
rejected by `VerifyingKey::from_bytes`; and otherwise returns
`Ok(true)` exactly when the signature verifies over the exact message
bytes under the public key, `Ok(false)` otherwise. -/
theorem verify_signature_cases (E : Ed25519) (msg : List Nat)
    (s p : String) :
    (∀ e, hex_to_bin s = .error e →
      verify_signature E msg s p = .error e) ∧
    (∀ sb e, hex_to_bin s = .ok sb → hex_to_bin p = .error e →
      verify_signature E msg s p = .error e) ∧
    (∀ sb pb, hex_to_bin s = .ok sb → hex_to_bin p = .ok pb →
      ((pb.length ≠ 32 →
         verify_signature E msg s p = .error .invalidSeedLength) ∧
       (pb.length = 32 → sb.length ≠ 64 →
         verify_signature E msg s p = .error .ed25519Error) ∧
       (pb.length = 32 → sb.length = 64 → E.validPub pb = false →
         verify_signature E msg s p = .error .ed25519Error) ∧
       (pb.length = 32 → sb.length = 64 → E.validPub pb = true →
         verify_signature E msg s p = .ok (E.verify pb msg sb)))) := by
  refine ⟨?_, ?_, ?_⟩
  · intro e he
    unfold verify_signature
    rw [he]
  · intro sb e hs hp
    unfold verify_signature
    rw [hs]
    dsimp only
    rw [hp]
  · intro sb pb hs hp
    unfold verify_signature
    rw [hs]
    dsimp only
    rw [hp]
    dsimp only
    refine ⟨?_, ?_, ?_, ?_⟩
    · intro h
      rw [if_pos h]
    · intro h1 h2
      rw [if_neg (by omega), if_pos h2]
    · intro h1 h2 h3
      rw [if_neg (by omega), if_neg (by omega), if_neg (by simp [h3])]
    · intro h1 h2 h3
      rw [if_neg (by omega), if_neg (by omega), if_pos h3]

theorem verify_signature_cases_witness :
    verify_signature edModel0 [] zeros128 zeros64 = .ok true := by
  have h := ((verify_signature_cases edModel0 [] zeros128 zeros64).2.2
    (List.replicate 64 0) (List.replicate 32 0) rfl rfl).2.2.2
    (by simp) (by simp) rfl
  rw [h]
  rfl

/-- C6 (counterexample to the claim as stated): with
`network_id = None`, `prepare_exec` succeeds and its serialized `cmd`
string CONTAINS the substring `"networkId":null` — the field is
serialized with a JSON null, not omitted. -/
theorem networkId_present_when_none :
    (Cmd.prepare_exec edModel0 blake0 "g" [] [] (some "n") "(+ 1 2)" none
      meta0 none).isOk = true ∧
    subOccurs ("\"networkId\":null").data
      ((Cmd.prepare_exec edModel0 blake0 "g" [] [] (some "n") "(+ 1 2)" none
        meta0 none).getOk cmd0).cmd.data = true :=
  ⟨rfl, by decide⟩

/-- C6 (amended): when `prepare_exec` is called with
`network_id = None` and returns an envelope, the serialized payload
(the exact `cmd` string that is hashed) carries a `networkId` field
whose value is JSON `null` — serialized with a null value rather than
omitted (the serde field has only a rename attribute, no
skip-if-none). -/
theorem networkId_serialized_as_null (E : Ed25519)
    (blake : List Nat → List Nat) (genNonce : String)
    (signers : List (PactKeypair × List Cap))
    (verifiers : List CommandVerifier) (nonce : Option String)
    (pact_code : String) (env_data : Option Json) (meta : Meta) (c : Cmd)
    (h : Cmd.prepare_exec E blake genNonce signers verifiers nonce pact_code
      env_data meta none = .ok c) :
    (Cmd.payloadOf genNonce signers verifiers nonce pact_code env_data meta
      none).toJson.getField "networkId" = some Json.null ∧
    c.cmd = Json.render (Cmd.payloadOf genNonce signers verifiers nonce
      pact_code env_data meta none).toJson := by
  constructor
  · rw [toJson_getField_networkId, payloadOf_network_id]
  · exact (prepare_ok_cmd E blake genNonce signers verifiers nonce pact_code
      env_data meta none c h).1

theorem networkId_serialized_as_null_witness :
    (Cmd.payloadOf "g" [] [] (some "n") "(+ 1 2)" none meta0
      none).toJson.getField "networkId" = some Json.null ∧
    ((Cmd.prepare_exec edModel0 blake0 "g" [] [] (some "n") "(+ 1 2)" none
      meta0 none).getOk cmd0).cmd =
      Json.render (Cmd.payloadOf "g" [] [] (some "n") "(+ 1 2)" none meta0
        none).toJson :=
  networkId_serialized_as_null edModel0 blake0 "g" [] [] (some "n") "(+ 1 2)"
    none meta0
    ((Cmd.prepare_exec edModel0 blake0 "g" [] [] (some "n") "(+ 1 2)" none
      meta0 none).getOk cmd0) rfl

/-- C9: calling `prepare_exec` with an explicit nonce `Some n`
embeds exactly `n`: the assembled payload's nonce field is `n`, the
JSON object serialized into the envelope's `cmd` string has `n` as
its `"nonce"` member, and the `cmd` string is precisely the rendering
of that object. -/
theorem explicit_nonce_embedded (E : Ed25519) (blake : List Nat → List Nat)
    (genNonce : String) (signers : List (PactKeypair × List Cap))
    (verifiers : List CommandVerifier) (n : String) (pact_code : String)
    (env_data : Option Json) (meta : Meta) (network_id : Option String)
    (c : Cmd)
    (h : Cmd.prepare_exec E blake genNonce signers verifiers (some n)
      pact_code env_data meta network_id = .ok c) :
    (Cmd.payloadOf genNonce signers verifiers (some n) pact_code env_data meta
      network_id).nonce = n ∧
    (Cmd.payloadOf genNonce signers verifiers (some n) pact_code env_data meta
      network_id).toJson.getField "nonce" = some (Json.str n) ∧
    c.cmd = Json.render (Cmd.payloadOf genNonce signers verifiers (some n)
      pact_code env_data meta network_id).toJson := by
  refine ⟨payloadOf_nonce genNonce signers verifiers n pact_code env_data meta
    network_id, ?_, ?_⟩
  · rw [toJson_getField_nonce, payloadOf_nonce]
  · exact (prepare_ok_cmd E blake genNonce signers verifiers (some n)
      pact_code env_data meta network_id c h).1

theorem explicit_nonce_embedded_witness :
    (Cmd.payloadOf "g" [] [] (some "test-nonce") "(+ 1 2)" none meta0
      (some "testnet04")).nonce = "test-nonce" ∧
    (Cmd.payloadOf "g" [] [] (some "test-nonce") "(+ 1 2)" none meta0
      (some "testnet04")).toJson.getField "nonce" =
        some (Json.str "test-nonce") ∧
    ((Cmd.prepare_exec edModel0 blake0 "g" [] [] (some "test-nonce") "(+ 1 2)"
      none meta0 (some "testnet04")).getOk cmd0).cmd =
      Json.render (Cmd.payloadOf "g" [] [] (some "test-nonce") "(+ 1 2)" none
        meta0 (some "testnet04")).toJson :=
  explicit_nonce_embedded edModel0 blake0 "g" [] [] "test-nonce" "(+ 1 2)"
    none meta0 (some "testnet04")
    ((Cmd.prepare_exec edModel0 blake0 "g" [] [] (some "test-nonce") "(+ 1 2)"
      none meta0 (some "testnet04")).getOk cmd0) rfl

/-- C1: `prepare_exec` over validly constructed keypairs (so that
every per-signer `sign` call succeeds, and each stored public key is
the derivation of its stored seed — the spec's signers) returns an
internally consistent envelope: `hash` is the digest of the exact
`cmd` bytes, `sigs` has exactly one signature per signer in input
order, and the i-th signature verifies under the i-th signer's public
key against the base64url-decoded raw digest of `hash`. -/
theorem prepare_exec_envelope_consistent (E : Ed25519) (hE : E.Correct)
    (blake : List Nat → List Nat) (hblake : ∀ d, ByteList (blake d))
    (genNonce : String) (signers : List (PactKeypair × List Cap))
    (verifiers : List CommandVerifier) (nonce : Option String)
    (pact_code : String) (env_data : Option Json) (meta : Meta)
    (network_id : Option String)
    (hkp : ∀ p ∈ signers, ValidKeypair E p.1) :
    ∃ c, Cmd.prepare_exec E blake genNonce signers verifiers nonce pact_code
        env_data meta network_id = .ok c ∧
      c.hash = Kadena.hash blake (strBytes c.cmd) ∧
      c.sigs.length = signers.length ∧
      (∀ (i : Nat) (sp : SignaturePayload) (p : PactKeypair × List Cap),
        c.sigs[i]? = some sp → signers[i]? = some p →
        ∃ d, base64url_decode c.hash = .ok d ∧
          verify_signature E d sp.sig p.1.public_key = .ok true) := by
  rw [prepare_exec_eq E blake hblake genNonce signers verifiers nonce
    pact_code env_data meta network_id]
  set hb := blake (strBytes (Cmd.cmdOf genNonce signers verifiers nonce
    pact_code env_data meta network_id)) with hhb
  have hbbytes : ByteList hb := hblake _
  have hsign : ∀ p ∈ signers, PactKeypair.sign E p.1 hb =
      .ok (bin_to_hex (E.sign (seedOf p.1) hb)) := by
    intro p hp
    obtain ⟨b, hdec, hlen, hpub⟩ := hkp p hp
    have hs : seedOf p.1 = b := by unfold seedOf; rw [hdec]
    rw [hs]
    exact sign_of_valid E p.1 b hdec hlen hb
  have hnp : (signers.map (fun p => PactKeypair.sign E p.1 hb)).any
      PResult.isPanic = false := by
    rw [List.any_eq_false]
    intro r hr
    obtain ⟨p, hp, rfl⟩ := List.mem_map.mp hr
    rw [hsign p hp]
    simp [PResult.isPanic]
  have hsigs : (signers.map (fun p => PactKeypair.sign E p.1 hb)).filterMap
      (fun r => r.toOption.map SignaturePayload.new) =
      signers.map (fun p =>
        SignaturePayload.new (bin_to_hex (E.sign (seedOf p.1) hb))) := by
    rw [List.filterMap_map]
    refine filterMap_eq_map_of_forall_some signers _ _ ?_
    intro p hp
    simp only [Function.comp_apply, hsign p hp]
    rfl
  rw [if_neg (by simp [hnp])]
  refine ⟨_, rfl, rfl, ?_, ?_⟩
  · dsimp only
    rw [hsigs, List.length_map]
  · intro i sp p hsp hp
    dsimp only at hsp
    rw [hsigs, List.getElem?_map, hp] at hsp
    simp only [Option.map_some', Option.some.injEq] at hsp
    subst hsp
    obtain ⟨b, hdec, hlen, hpub⟩ := hkp p (List.getElem?_mem hp)
    have hs : seedOf p.1 = b := by unfold seedOf; rw [hdec]
    refine ⟨hb, ?_, ?_⟩
    · show base64url_decode (Kadena.hash blake (strBytes (Cmd.cmdOf genNonce
        signers verifiers nonce pact_code env_data meta network_id))) = .ok hb
      rw [show Kadena.hash blake (strBytes (Cmd.cmdOf genNonce signers
        verifiers nonce pact_code env_data meta network_id)) =
          base64url_encode hb from rfl]
      exact base64url_decode_encode hb hbbytes
    · show verify_signature E hb
        (SignaturePayload.new (bin_to_hex (E.sign (seedOf p.1) hb))).sig
        p.1.public_key = .ok true
      rw [hs, hpub]
      exact verify_signature_of_sign E hE b hb hlen
        (hex_to_bin_bytes _ _ hdec)

theorem prepare_exec_envelope_consistent_witness :
    ∃ c, Cmd.prepare_exec edModel0 blake0 "g" [(kp0, [])] [] (some "n")
        "(+ 1 2)" none meta0 (some "testnet04") = .ok c ∧
      c.hash = Kadena.hash blake0 (strBytes c.cmd) ∧
      c.sigs.length = 1 := by
  obtain ⟨c, h1, h2, h3, _⟩ :=
    prepare_exec_envelope_consistent edModel0 edModel0_correct blake0
      blake0_bytes "g" [(kp0, [])] [] (some "n") "(+ 1 2)" none meta0
      (some "testnet04") (by
        intro p hp
        simp only [List.mem_singleton] at hp
        subst hp
        exact generate_valid edModel0 (List.replicate 32 0) (by simp)
          (by decide))
  exact ⟨c, h1, h2, by simpa using h3⟩

/-- C4: when exactly one signer's `sign` call fails with an error and
every other signer's succeeds, `prepare_exec` still returns `Ok`: the
failing signer's signature is omitted, the envelope has one signature
fewer than it has signers, and the remaining signatures appear in
their input order. -/
theorem prepare_exec_swallows_sign_failure (E : Ed25519)
    (blake : List Nat → List Nat) (hblake : ∀ d, ByteList (blake d))
    (genNonce : String) (pre : List (PactKeypair × List Cap))
    (bad : PactKeypair × List Cap) (post : List (PactKeypair × List Cap))
    (verifiers : List CommandVerifier) (nonce : Option String)
    (pact_code : String) (env_data : Option Json) (meta : Meta)
    (network_id : Option String) (sPre sPost : List String) (e : CryptoError)
    (hpre : pre.map (fun p => PactKeypair.sign E p.1 (blake (strBytes
      (Cmd.cmdOf genNonce (pre ++ bad :: post) verifiers nonce pact_code
        env_data meta network_id)))) = sPre.map PResult.ok)
    (hbad : PactKeypair.sign E bad.1 (blake (strBytes (Cmd.cmdOf genNonce
      (pre ++ bad :: post) verifiers nonce pact_code env_data meta
        network_id))) = .err e)
    (hpost : post.map (fun p => PactKeypair.sign E p.1 (blake (strBytes
      (Cmd.cmdOf genNonce (pre ++ bad :: post) verifiers nonce pact_code
        env_data meta network_id)))) = sPost.map PResult.ok) :
    ∃ c, Cmd.prepare_exec E blake genNonce (pre ++ bad :: post) verifiers
        nonce pact_code env_data meta network_id = .ok c ∧
      c.sigs.length = pre.length + post.length ∧
      c.sigs.length < (pre ++ bad :: post).length ∧
      c.sigs.map SignaturePayload.sig = sPre ++ sPost := by
  rw [prepare_exec_eq E blake hblake genNonce (pre ++ bad :: post) verifiers
    nonce pact_code env_data meta network_id]
  set hb := blake (strBytes (Cmd.cmdOf genNonce (pre ++ bad :: post)
    verifiers nonce pact_code env_data meta network_id)) with hhb
  have hmap : (pre ++ bad :: post).map (fun p => PactKeypair.sign E p.1 hb) =
      sPre.map PResult.ok ++ .err e :: sPost.map PResult.ok := by
    rw [List.map_append, List.map_cons, hpre, hbad, hpost]
  have hnp : (sPre.map (PResult.ok (ε := CryptoError) (α := String)) ++
      .err e :: sPost.map PResult.ok).any PResult.isPanic = false := by
    rw [List.any_eq_false]
    intro r hr
    rcases List.mem_append.mp hr with h | h
    · obtain ⟨v, _, rfl⟩ := List.mem_map.mp h
      simp [PResult.isPanic]
    · rcases List.mem_cons.mp h with rfl | h2
      · simp [PResult.isPanic]
      · obtain ⟨v, _, rfl⟩ := List.mem_map.mp h2
        simp [PResult.isPanic]
  have hfm : (sPre.map (PResult.ok (ε := CryptoError) (α := String)) ++
      .err e :: sPost.map PResult.ok).filterMap
      (fun r => r.toOption.map SignaturePayload.new) =
      sPre.map SignaturePayload.new ++ sPost.map SignaturePayload.new := by
    rw [List.filterMap_append]
    rw [filterMap_toOption_of_all_ok _ sPre _ rfl]
    rw [show List.filterMap (fun r => Option.map SignaturePayload.new
          r.toOption) (PResult.err e :: sPost.map PResult.ok)
        = List.filterMap (fun r => Option.map SignaturePayload.new r.toOption)
          (sPost.map PResult.ok) from rfl]
    rw [filterMap_toOption_of_all_ok _ sPost _ rfl]
  have hlenPre : sPre.length = pre.length := by
    have := congrArg List.length hpre
    simpa using this.symm
  have hlenPost : sPost.length = post.length := by
    have := congrArg List.length hpost
    simpa using this.symm
  rw [hmap, if_neg (by simp [hnp]), hfm]
  refine ⟨_, rfl, ?_, ?_, ?_⟩
  · dsimp only
    simp [hlenPre, hlenPost]
  · dsimp only
    simp only [List.length_append, List.length_map, List.length_cons]
    omega
  · dsimp only
    simp only [List.map_append, List.map_map]
    rw [show SignaturePayload.sig ∘ SignaturePayload.new = id from rfl]
    simp

theorem prepare_exec_swallows_sign_failure_witness :
    ∃ c, Cmd.prepare_exec edModel0 blake0 "g" [(kp0, []), (badKp, [])] []
        (some "n") "(+ 1 2)" none meta0 none = .ok c ∧
      c.sigs.length = 1 ∧
      c.sigs.map SignaturePayload.sig = [zeros128] := by
  obtain ⟨c, h1, h2, h3, h4⟩ :=
    prepare_exec_swallows_sign_failure edModel0 blake0 blake0_bytes "g"
      [(kp0, [])] (badKp, []) [] [] (some "n") "(+ 1 2)" none meta0 none
      [zeros128] [] CryptoError.hexError rfl rfl rfl
  exact ⟨c, h1, by simpa using h2, by simpa using h4⟩

end Kadena
